import Mathlib

/-!
Verification development for the WASM/JS crawler module (`crawler.js`).

The definitions below are a shallow embedding of the crawler's pure logic:
JavaScript strings are Lean `String`s manipulated through their `Char` lists,
byte buffers are `List Nat`, and the event-driven handlers are modelled as
pure decision functions over explicit inputs (response data, body-read
outcomes, step oracles).  Each definition carries a reference to the source
lines it embeds.
-/

/-! ## JavaScript string primitives (modelled over `Char` lists) -/

/-- Lower-case a string character-wise; models JavaScript `toLowerCase` for
the ASCII strings the crawler handles. -/
def strLower (s : String) : String :=
  String.mk (s.data.map Char.toLower)

/-- `seqContains needle hay`: `needle` occurs contiguously inside `hay`. -/
def seqContains (needle : List Char) : List Char → Bool
  | [] => needle.isEmpty
  | c :: rest => needle.isPrefixOf (c :: rest) || seqContains needle rest

/-- Substring containment; models JavaScript `String.prototype.includes`. -/
def strContains (s pat : String) : Bool :=
  seqContains pat.data s.data

/-- Prefix test; models JavaScript `String.prototype.startsWith`. -/
def strStartsWith (s pat : String) : Bool :=
  pat.data.isPrefixOf s.data

/-- Suffix test; models JavaScript `String.prototype.endsWith`. -/
def strEndsWith (s pat : String) : Bool :=
  pat.data.isSuffixOf s.data

/-! ## `crawler.js` lines 9–12: `sanitizeFilename` -/

/-- One character of `url.replace(/[^a-zA-Z0-9-_./]/g, '_')`: characters in
the class `[a-zA-Z0-9-_./]` are kept, every other character becomes `'_'`. -/
def sanitizeChar (c : Char) : Char :=
  if c.isAlpha || c.isDigit || c == '-' || c == '_' || c == '.' || c == '/' then c else '_'

/-- `sanitizeFilename` (crawler.js lines 9–12): replace every character
outside `[a-zA-Z0-9-_./]` with `'_'`, then truncate to 200 characters. -/
def sanitizeFilename (url : String) : String :=
  let clean := url.data.map sanitizeChar
  String.mk (if clean.length > 200 then clean.take 200 else clean)

/-! ## `crawler.js` lines 14–25: extension guess and WASM magic check -/

/-- JavaScript truthiness of an optional string (`undefined`/`null`/`''` are
falsy). -/
def jsTruthyS (s : Option String) : Bool :=
  match s with
  | some v => v != ""
  | none => false

/-- `guessExtFromContentType` (crawler.js lines 14–20). -/
def guessExtFromContentType (ct : Option String) : Option String :=
  match ct with
  | none => none
  | some v =>
    if v == "" then none
    else
      let lower := strLower v
      if strContains lower "javascript" || strContains lower "ecmascript" || strContains lower "text/js" then some ".js"
      else none

/-- `isWasmByMagic` (crawler.js lines 22–25): the first four bytes are
`00 61 73 6d`. -/
def isWasmByMagic (bytes : List Nat) : Bool :=
  match bytes with
  | b0 :: b1 :: b2 :: b3 :: _ => b0 == 0x00 && b1 == 0x61 && b2 == 0x73 && b3 == 0x6d
  | _ => false

/-! ## `crawler.js` lines 27–56: URL/content-type heuristics -/

/-- The regex `/\.(?:ext)(?:\?|#|$)/i` applied to a URL: the (lower-cased)
URL contains `ext` followed by `?`, `#`, or the end of the string. -/
def hasExtAnchor (url ext : String) : Bool :=
  let u := strLower url
  strContains u (ext ++ "?") || strContains u (ext ++ "#") || strEndsWith u ext

/-- A case-insensitive containment test for a URL hint such as `/js/`. -/
def hasUrlToken (url tok : String) : Bool :=
  strContains (strLower url) tok

/-- `isLikelyJsByHeuristics` (crawler.js lines 27–38). -/
def isLikelyJsByHeuristics (ct : Option String) (url : String) : Bool :=
  (jsTruthyS ct && strContains (strLower (ct.getD "")) "javascript") ||
  hasExtAnchor url ".js" || hasExtAnchor url ".mjs" ||
  hasUrlToken url "/js/" ||
  hasUrlToken url "/javascript/" ||
  hasUrlToken url "/scripts/" ||
  hasUrlToken url ".min.js" ||
  hasUrlToken url ".bundle.js" ||
  hasUrlToken url ".chunk.js"

/-- `isLikelyWasmByHeuristics` (crawler.js lines 40–56). -/
def isLikelyWasmByHeuristics (ct : Option String) (url : String) : Bool :=
  (jsTruthyS ct && strContains (strLower (ct.getD "")) "application/wasm") ||
  hasExtAnchor url ".wasm" ||
  strStartsWith (strLower url) "data:application/wasm;" ||
  strStartsWith (strLower url) "data:application/wasm," ||
  hasUrlToken url "/wasm/" ||
  hasUrlToken url "/webassembly/" ||
  hasUrlToken url "/canvas/" ||
  hasUrlToken url "/canvas2d/" ||
  hasUrlToken url "/webgl/" ||
  hasUrlToken url "/flutter/" ||
  hasUrlToken url "/canvaskit/" ||
  hasUrlToken url "/emscripten/" ||
  hasUrlToken url "/unity/" ||
  hasUrlToken url "/unreal/"

/-! ## URL parsing and Node `path` primitives used by `targetPathFor` -/

/-- The hostname and pathname pair produced by `new URL(url)`. -/
structure UrlParts where
  hostname : String
  pathname : String
deriving Repr, DecidableEq

/-- The suffix of `l` after the first occurrence of `sep`, if any. -/
def dropAfterSep (sep : List Char) : List Char → Option (List Char)
  | [] => if sep.isEmpty then some [] else none
  | c :: rest =>
    if sep.isPrefixOf (c :: rest) then some ((c :: rest).drop sep.length)
    else dropAfterSep sep rest

/-- Models WHATWG URL parsing (Node `new URL`) for the URL shapes the crawler
sees: `scheme://host[:port]/path[?query][#fragment]`, and `data:` URLs, whose
hostname is empty and whose pathname is the remainder of the URL up to any
`?` or `#`. -/
def parseURL (url : String) : UrlParts :=
  if strStartsWith (strLower url) "data:" then
    { hostname := "", pathname := String.mk ((url.data.drop 5).takeWhile (fun c => c != '?' && c != '#')) }
  else
    match dropAfterSep "://".data url.data with
    | none => { hostname := "", pathname := url }
    | some rest =>
      let authority := rest.takeWhile (fun c => c != '/' && c != '?' && c != '#')
      let hostname := authority.takeWhile (fun c => c != ':')
      let tail := rest.drop authority.length
      let pathname := if tail.head? == some '/' then tail.takeWhile (fun c => c != '?' && c != '#') else ['/']
      { hostname := strLower (String.mk hostname), pathname := String.mk pathname }

/-- Models Node `path.extname`: the substring of the basename from its last
dot; empty when the basename has no dot or only a leading dot. -/
def pathExtname (p : String) : String :=
  let rbase := p.data.reverse.takeWhile (fun c => c != '/')
  let k := (rbase.takeWhile (fun c => c != '.')).length
  if k + 1 < rbase.length then String.mk ('.' :: (rbase.take k).reverse) else ""

/-- Models Node `path.join` (posix flavour) for the segment shapes the
crawler builds: relative segments without `..`; empty segments are dropped. -/
def pathJoin (parts : List String) : String :=
  String.intercalate "/" (parts.filter (fun p => p != ""))

/-! ## `crawler.js` lines 58–95: `targetPathFor` -/

/-- JavaScript `a || b` on strings (empty string is falsy). -/
def jsOrS (a b : String) : String :=
  if a != "" then a else b

/-- The bucket choice of `targetPathFor` (crawler.js lines 63–74): `js`,
`wasm`, `css`, `images`, `fonts`, `data` or `other`. -/
def fileTypeFor (defaultExt contentType : Option String) : String :=
  if defaultExt == some ".js" || (jsTruthyS contentType && strContains (strLower (contentType.getD "")) "javascript") then "js"
  else if defaultExt == some ".wasm" || (jsTruthyS contentType && strContains (strLower (contentType.getD "")) "application/wasm") then "wasm"
  else if jsTruthyS contentType then
    let l := strLower (contentType.getD "")
    if strContains l "css" then "css"
    else if strContains l "image" then "images"
    else if strContains l "font" then "fonts"
    else if strContains l "json" then "data"
    else "other"
  else "other"

/-- The filename derivation of `targetPathFor` (crawler.js lines 76–82):
strip one leading `/` from the pathname, turn the remaining `/` into `_`,
append `index` when empty or `_`-terminated, then append an extension when
the name has none (`path.extname(fileName) || defaultExt ||
guessExtFromContentType(contentType) || ''`). -/
def baseFileNameFor (pathname : String) (defaultExt contentType : Option String) : String :=
  let p := if strStartsWith pathname "/" then String.mk (pathname.data.drop 1) else pathname
  let fileName := String.mk (p.data.map (fun c => if c == '/' then '_' else c))
  let fileName := if fileName == "" || strEndsWith fileName "_" then fileName ++ "index" else fileName
  let ext := jsOrS (pathExtname fileName) (jsOrS (defaultExt.getD "") ((guessExtFromContentType contentType).getD ""))
  if pathExtname fileName == "" then fileName ++ ext else fileName

/-- `targetPathFor` (crawler.js lines 58–95).  When `mainSiteHostname` is
supplied (truthy) and differs from the URL's hostname, the file is grouped
under the main hostname and the filename is prefixed with the sanitized
resource hostname; the result is
`path.join(baseDir, sanitize(targetHostname), fileType, sanitize(fileName))`. -/
def targetPathFor (url baseDir : String) (defaultExt contentType : Option String) (mainSiteHostname : Option String) : String :=
  let hostname := (parseURL url).hostname
  let pathname := (parseURL url).pathname
  let fileType := fileTypeFor defaultExt contentType
  let fileName0 := baseFileNameFor pathname defaultExt contentType
  let grouped :=
    match mainSiteHostname with
    | some m =>
      if m != "" && hostname != m then (m, sanitizeFilename hostname ++ "_" ++ fileName0)
      else (hostname, fileName0)
    | none => (hostname, fileName0)
  pathJoin [baseDir, sanitizeFilename grouped.1, fileType, sanitizeFilename grouped.2]

/-! ## `crawler.js` lines 150–304: the response handler -/

/-- The data of one observed network response, as read by the handler
(crawler.js lines 152–158): URL, declared content type, and the request's
resource type label. -/
structure ResponseEvent where
  url : String
  contentType : Option String
  resourceType : String
deriving Repr, DecidableEq

/-- `isJsByContentType` (crawler.js lines 171–177). -/
def isJsByContentType (ct : Option String) : Bool :=
  jsTruthyS ct &&
    (strContains (strLower (ct.getD "")) "javascript" ||
     strContains (strLower (ct.getD "")) "ecmascript" ||
     strContains (strLower (ct.getD "")) "text/js" ||
     strContains (strLower (ct.getD "")) "application/javascript" ||
     strContains (strLower (ct.getD "")) "application/x-javascript")

/-- The source-level tokens the content sniffer greps for
(crawler.js line 243). -/
def jsSniffTokens : List String :=
  ["function", "var", "let", "const", "=>", "import", "export", "class",
   "async", "await", "console.", "document.", "window."]

/-- Models `Buffer.toString('utf8')` for the ASCII bodies the sniffing
claims exercise: each byte becomes the character with that code point. -/
def bytesToAscii (b : List Nat) : String :=
  String.mk (b.map Char.ofNat)

/-- The JavaScript content sniff (crawler.js lines 239–247): decode the
first 1000 bytes and test for common JavaScript source tokens. -/
def isJsBySniff (body : List Nat) : Bool :=
  jsSniffTokens.any (fun t => strContains (bytesToAscii (body.take 1000)) t)

/-- `shouldProcess` (crawler.js lines 163–185): the gate deciding whether a
response is worth saving at all. -/
def shouldProcessFor (ev : ResponseEvent) : Bool :=
  isLikelyWasmByHeuristics ev.contentType ev.url ||
  isLikelyJsByHeuristics ev.contentType ev.url ||
  ev.resourceType == "script" ||
  isJsByContentType ev.contentType ||
  ev.resourceType == "script"

/-- Which save path the response handler chooses for a response
(crawler.js lines 187–273). -/
inductive SaveRoute where
  /-- The handler returns without saving (gate failed, URL empty, or URL
  already saved). -/
  | skipped
  /-- The body could not be read or was empty on the non-WASM branch
  (crawler.js lines 219–232). -/
  | droppedNoBody
  /-- The immediate WASM branch (crawler.js lines 194–217): save at
  `targetPathFor(url, outDir, '.wasm', 'application/wasm', mainHostname)`,
  falling back to the pending queue if the body read throws. -/
  | wasmImmediate
  /-- The `data:` URL branch (crawler.js lines 266–270): synthetic
  `inline/<timestamp>_<random><ext>` name. -/
  | inlineData (ext : Option String)
  /-- The general branch (crawler.js line 272): save at
  `targetPathFor(url, outDir, defaultExt, contentType, mainHostname)`. -/
  | viaTarget (defaultExt : Option String)
deriving Repr, DecidableEq

/-- The second-pass extension classification (crawler.js lines 234–264),
run after the body has been read on the non-WASM-heuristic branch. -/
def secondPassExt (ev : ResponseEvent) (body : List Nat) : Option String :=
  let isWasmHeur := isLikelyWasmByHeuristics ev.contentType ev.url
  let isWasmMagic := isWasmByMagic body
  let isJsByContent := if body.length > 0 && !isWasmMagic then isJsBySniff body else false
  if isWasmHeur || isWasmMagic then some ".wasm"
  else if isLikelyJsByHeuristics ev.contentType ev.url || ev.resourceType == "script" ||
          isJsByContentType ev.contentType || isJsByContent then some ".js"
  else if ev.resourceType == "script" then some ".js"
  else none

/-- The response handler's routing decision (crawler.js lines 150–273),
as a pure function of the event, the `saved`-set membership of its URL, and
the outcome of the body read (`none` models a throwing body read). -/
def responseRoute (ev : ResponseEvent) (alreadySaved : Bool) (bodyRead : Option (List Nat)) : SaveRoute :=
  if ev.url == "" || alreadySaved then .skipped
  else if !(shouldProcessFor ev) then .skipped
  else if isLikelyWasmByHeuristics ev.contentType ev.url then .wasmImmediate
  else
    match bodyRead with
    | none => .droppedNoBody
    | some body =>
      if body.isEmpty then .droppedNoBody
      else if strStartsWith ev.url "data:" then .inlineData (secondPassExt ev body)
      else .viaTarget (secondPassExt ev body)

/-- The file path each route resolves to (crawler.js lines 202, 266–272);
`synth` stands for the `Date.now()_random` part of the synthetic name. -/
def routePath (mainHostname outDir synth : String) (ev : ResponseEvent) : SaveRoute → Option String
  | .wasmImmediate => some (targetPathFor ev.url outDir (some ".wasm") (some "application/wasm") (some mainHostname))
  | .inlineData ext => some (pathJoin [outDir, "inline/" ++ synth ++ ext.getD ""])
  | .viaTarget dExt => some (targetPathFor ev.url outDir dExt ev.contentType (some mainHostname))
  | _ => none

/-- The bucket (second path component) a route files the response under;
`none` when the route writes nothing or writes a synthetic inline name. -/
def routeBucket (ev : ResponseEvent) : SaveRoute → Option String
  | .wasmImmediate => some (fileTypeFor (some ".wasm") (some "application/wasm"))
  | .viaTarget dExt => some (fileTypeFor dExt ev.contentType)
  | _ => none

/-! ## `crawler.js` lines 194–217 and 307–338: immediate and deferred WASM
saves -/

/-- Outcome of `response.body()` (possibly raced against the drain's 10 s
timeout): either the bytes, or a thrown error such as `Timeout`. -/
inductive BodyRead where
  | ok (body : List Nat)
  | failed (msg : String)
deriving Repr, DecidableEq

/-- Result of the immediate WASM branch for one response. -/
inductive WasmImmediateResult where
  /-- Body read succeeded and was non-empty: file written, URL marked saved. -/
  | savedAt (filePath : String)
  /-- Body read threw: the response is queued into `pending`. -/
  | queuedPending
  /-- Body read succeeded but was empty: nothing happens. -/
  | droppedEmpty
deriving Repr, DecidableEq

/-- The immediate WASM branch (crawler.js lines 194–217).  The handler
computes `isWasmByMagic(body)` only for logging: any non-empty body is
written at `targetPathFor(url, outDir, '.wasm', 'application/wasm',
mainHostname)`. -/
def immediateWasmSave (mainHostname outDir url : String) (read : BodyRead) : WasmImmediateResult :=
  match read with
  | .failed _ => .queuedPending
  | .ok body =>
    if body.isEmpty then .droppedEmpty
    else .savedAt (targetPathFor url outDir (some ".wasm") (some "application/wasm") (some mainHostname))

/-- One drain iteration of `processPendingResponses` (crawler.js lines
309–332): a successful non-empty body read is written at
`targetPathFor(url, outDir, '.wasm', 'application/wasm')` — with no
`mainSiteHostname` argument — otherwise the item produces nothing. -/
def drainItemSave (outDir url : String) (read : BodyRead) : Option String :=
  match read with
  | .failed _ => none
  | .ok body =>
    if body.isEmpty then none
    else some (targetPathFor url outDir (some ".wasm") (some "application/wasm") none)

/-- `processPendingResponses` (crawler.js lines 307–338): every pending
entry is visited once, saveable entries produce `(url, path)` records, and
the map is cleared at the end — the second component is the pending map
left after the drain. -/
def processPendingResponses (outDir : String) (pending : List (String × BodyRead)) :
    List (String × String) × List (String × BodyRead) :=
  (pending.filterMap (fun e => (drainItemSave outDir e.1 e.2).map (fun p => (e.1, p))), [])

/-- The session teardown (crawler.js lines 462–466): a final drain of
`pending` runs, then the context and browser close (the trailing list
records the close calls that follow the drain). -/
def crawlFinalize (outDir : String) (pending : List (String × BodyRead)) :
    List (String × String) × List (String × BodyRead) × List String :=
  let drained := processPendingResponses outDir pending
  (drained.1, drained.2, ["context.close", "browser.close"])

/-! ## `crawler.js` lines 341–375: the request router, and the response
handler's outermost catch -/

/-- A JavaScript exception, identified by its message. -/
inductive JsError where
  | err (msg : String)
deriving Repr, DecidableEq

/-- The router's interception condition (crawler.js line 345): the URL
must contain `compile`, `wasi` and `target=arduino` simultaneously. -/
def isArduinoCompileUrl (url : String) : Bool :=
  strContains url "compile" && strContains url "wasi" && strContains url "target=arduino"

/-- The outcomes of the router's suspension points: `route.fetch()` (the
response's ok flag and body), the guarded body-processing segment
(crawler.js lines 352–366), `route.fulfill` and `route.continue`. -/
structure RouteSteps where
  fetchResult : Except JsError (Bool × List Nat)
  saveResult : Except JsError Unit
  fulfillResult : Except JsError Unit
  continueResult : Except JsError Unit

/-- The request-router handler (crawler.js lines 341–375).  Only the body
processing (lines 352–366) sits inside a try/catch; `route.fetch()`,
`route.fulfill` and `route.continue` run outside of any try, so their
errors leave the handler. -/
def routeHandler (url : String) (steps : RouteSteps) : Except JsError Unit :=
  if isArduinoCompileUrl url then
    match steps.fetchResult with
    | .error e => .error e
    | .ok (okFlag, _body) =>
      let _guarded : Unit := if okFlag then (match steps.saveResult with | _ => ()) else ()
      steps.fulfillResult
  else steps.continueResult

/-- The response handler's outermost try/catch (crawler.js lines 150–304):
whatever the handler body does — `run` is its outcome, carrying the chosen
route on success — the event callback returns normally, reporting the route
it managed to take, or `none` when an exception was swallowed. -/
def responseHandlerGuard (run : Except JsError SaveRoute) : Except JsError (Option SaveRoute) :=
  match run with
  | .ok r => .ok (some r)
  | .error _ => .ok none

/-! ## `crawler.js` lines 390–459: navigation retry and the page-visit
error handling -/

/-- The retry loop of `navigateWithRetry` starting at a given attempt
number with a given number of attempts remaining; `outcome n` is what
`page.goto` does on attempt `n`.  Returns the final result, the number of
attempts performed, and the list of waits (in ms) performed between
attempts. -/
def navigateFrom (outcome : Nat → Except JsError Nat) : Nat → Nat → Except JsError Nat × Nat × List Nat
  | _, 0 => (.error (.err "no attempts"), 0, [])
  | attempt, 1 => (outcome attempt, 1, [])
  | attempt, remaining + 2 =>
    match outcome attempt with
    | .ok v => (.ok v, 1, [])
    | .error _ =>
      let r := navigateFrom outcome (attempt + 1) (remaining + 1)
      (r.1, r.2.1 + 1, attempt * 2000 :: r.2.2)

/-- `navigateWithRetry` (crawler.js lines 390–414): up to `maxRetries`
attempts starting at attempt 1, waiting `attempt * 2000` ms after each
failed non-final attempt, rethrowing the final failure. -/
def navigateWithRetry (outcome : Nat → Except JsError Nat) (maxRetries : Nat) :
    Except JsError Nat × Nat × List Nat :=
  navigateFrom outcome 1 maxRetries

/-- The page-visit loop's error classification (crawler.js lines 441–456),
used purely for logging. -/
def classifyNavError (msg : String) : String :=
  if strContains msg "ERR_CONNECTION_RESET" then "connection-reset"
  else if strContains msg "ERR_TIMED_OUT" then "timeout"
  else if strContains msg "ERR_NAME_NOT_RESOLVED" then "dns-failure"
  else if strContains msg "ERR_SSL" then "tls-failure"
  else "other"

/-- The catch of the page-visit loop (crawler.js lines 416–459): a failed
navigation is logged by category and the loop carries on — every outcome
yields a log string, none re-throws. -/
def pageVisitLog (nav : Except JsError Nat) : String :=
  match nav with
  | .ok _ => "ok"
  | .error (.err m) => classifyNavError m

/-- The session's sequence of page visits (crawler.js lines 377–460): each
queued URL is visited in turn and produces a `(url, log)` record; a
navigation failure never aborts the sequence. -/
def crawlPages (navOutcome : String → Nat → Except JsError Nat) (urls : List String) :
    List (String × String) :=
  urls.map (fun u => (u, pageVisitLog (navigateWithRetry (navOutcome u) 3).1))

/-! ## `crawler.js` lines 377–440: the visited/toVisit state machine -/

/-- Models WHATWG `URL.origin` (scheme://host[:port]) for the crawler's
http(s) URLs (default-port normalization is not modelled). -/
def urlOrigin (url : String) : String :=
  match dropAfterSep "://".data url.data with
  | none => url
  | some rest =>
    let scheme := url.data.takeWhile (fun c => c != ':')
    String.mk ((scheme.map Char.toLower) ++ "://".data ++
      ((rest.takeWhile (fun c => c != '/' && c != '?' && c != '#')).map Char.toLower))

/-- The session's page-visit state: the FIFO queue and the visited set
(modelled as the list of visited URLs, newest first). -/
structure CrawlState where
  toVisit : List String
  visited : List String
deriving Repr, DecidableEq

/-- One iteration of the page-visit loop (crawler.js lines 377–440): pop
the head of `toVisit`; skip it when already visited; otherwise mark it
visited and, while still under the page budget, append the harvested
same-origin links that are not yet visited (`links u` is what
`page.$$eval('a[href]', ...)` returns on the page at `u`). -/
def crawlStep (maxPages : Nat) (links : String → List String) (s : CrawlState) : CrawlState :=
  match s.toVisit with
  | [] => s
  | url :: rest =>
    if s.visited.contains url then { s with toVisit := rest }
    else
      let visited' := url :: s.visited
      let harvested :=
        if visited'.length < maxPages then
          (links url).filter (fun href => urlOrigin href == urlOrigin url && !visited'.contains href)
        else []
      { toVisit := rest ++ harvested, visited := visited' }

/-! ## `crawler.js` lines 283–300: the inline WASM extractor -/

/-- The base64 character class `[A-Za-z0-9+/=]` of the extractor's
pattern. -/
def b64char (c : Char) : Bool :=
  c.isAlpha || c.isDigit || c == '+' || c == '/' || c == '='

/-- The 6-bit value of a base64 alphabet character (`=` and everything
else decode to `none`). -/
def b64val (c : Char) : Option Nat :=
  if 'A' ≤ c && c ≤ 'Z' then some (c.toNat - 65)
  else if 'a' ≤ c && c ≤ 'z' then some (c.toNat - 97 + 26)
  else if '0' ≤ c && c ≤ '9' then some (c.toNat - 48 + 52)
  else if c == '+' then some 62
  else if c == '/' then some 63
  else none

/-- Models Node's `Buffer.from(s, 'base64')` for strings over the base64
alphabet (which is all the extractor's pattern can capture): decode 4-char
groups into 3 bytes, with `=` padding (or the end of the string) cutting
the final group short. -/
def base64decode : List Char → List Nat
  | c1 :: c2 :: c3 :: c4 :: rest =>
    match b64val c1, b64val c2, b64val c3, b64val c4 with
    | some v1, some v2, some v3, some v4 =>
      (v1 * 4 + v2 / 16) :: ((v2 % 16) * 16 + v3 / 4) :: ((v3 % 4) * 64 + v4) :: base64decode rest
    | some v1, some v2, some v3, none =>
      [v1 * 4 + v2 / 16, (v2 % 16) * 16 + v3 / 4]
    | some v1, some v2, none, _ => [v1 * 4 + v2 / 16]
    | _, _, _, _ => []
  | [c1, c2, c3] =>
    match b64val c1, b64val c2, b64val c3 with
    | some v1, some v2, some v3 => [v1 * 4 + v2 / 16, (v2 % 16) * 16 + v3 / 4]
    | some v1, some v2, none => [v1 * 4 + v2 / 16]
    | _, _, _ => []
  | [c1, c2] =>
    match b64val c1, b64val c2 with
    | some v1, some v2 => [v1 * 4 + v2 / 16]
    | _, _ => []
  | _ => []

/-- The fixed header of the extractor's pattern
`data:application\/wasm;base64,` (crawler.js line 287). -/
def headerL : List Char :=
  "data:application/wasm;base64,".data

/-- The scan loop of `dataUrlRegex.exec` (crawler.js lines 287–289) over a
character list, with explicit fuel: at each position, if the fixed header
matches and at least one base64-alphabet character follows, the maximal
alphabet run is the captured payload and scanning resumes after it (the
regex's `lastIndex`); otherwise scanning advances one character. -/
def scanAux : Nat → List Char → List (List Char)
  | 0, _ => []
  | _ + 1, [] => []
  | fuel + 1, c :: rest =>
    if headerL.isPrefixOf (c :: rest) then
      let run := ((c :: rest).drop headerL.length).takeWhile b64char
      if run.isEmpty then scanAux fuel rest
      else run :: scanAux fuel (((c :: rest).drop headerL.length).dropWhile b64char)
    else scanAux fuel rest

/-- All payloads captured by the global regex scan over `l`. -/
def scanWasmL (l : List Char) : List (List Char) :=
  scanAux l.length l

/-- The inline WASM extractor (crawler.js lines 283–300) over a character
list: decode every captured payload and keep exactly the decoded buffers
that are non-empty and begin with the WASM magic — these are the buffers
written as `inline/embedded_<timestamp>_<random>.wasm` files; everything
else is silently discarded. -/
def extractInlineWasmL (l : List Char) : List (List Nat) :=
  ((scanWasmL l).map base64decode).filter (fun b => !b.isEmpty && isWasmByMagic b)

/-- The inline WASM extractor on a JavaScript body decoded as text. -/
def extractInlineWasm (s : String) : List (List Nat) :=
  extractInlineWasmL s.data

/-! ## Shared helper lemmas -/

theorem sanitizeChar_idem (c : Char) : sanitizeChar (sanitizeChar c) = sanitizeChar c := by
  by_cases h : (c.isAlpha || c.isDigit || c == '-' || c == '_' || c == '.' || c == '/') = true
  · simp [sanitizeChar, h]
  · have hc : sanitizeChar c = '_' := by simp [sanitizeChar, h]
    rw [hc]
    decide

theorem map_sanitizeChar_idem (l : List Char) :
    (l.map sanitizeChar).map sanitizeChar = l.map sanitizeChar := by
  induction l with
  | nil => rfl
  | cons c t ih => simp [sanitizeChar_idem, ih]

theorem strLength_mk (l : List Char) : (String.mk l).length = l.length := rfl

theorem strData_append (a b : String) : (a ++ b).data = a.data ++ b.data := rfl

theorem sanitizeFilename_data_short (s : String) (h : s.length ≤ 200) :
    (sanitizeFilename s).data = s.data.map sanitizeChar := by
  have hl : s.data.length ≤ 200 := h
  simp only [sanitizeFilename]
  rw [if_neg]
  simp [List.length_map]
  omega

theorem isPrefixOf_self_append (l x : List Char) : l.isPrefixOf (l ++ x) = true := by
  induction l with
  | nil => simp [List.isPrefixOf]
  | cons c t ih => simp [List.isPrefixOf, ih]

theorem take_append_of_le {α : Type} (l₁ l₂ : List α) (n : Nat) (h : l₁.length ≤ n) :
    (l₁ ++ l₂).take n = l₁ ++ l₂.take (n - l₁.length) := by
  rw [List.take_append_eq_append_take, List.take_of_length_le h]

/-! ## Claim C4 -/

/-- Modelled from the spec: `sanitize` read literally as stripping —
removing — every character outside `[A-Za-z0-9-_./]`, with the same
200-character truncation; defined only to compare the spec's wording with
the source's `sanitizeFilename`. -/
def sanitizeSpecStripped (url : String) : String :=
  let clean := url.data.filter (fun c => c.isAlpha || c.isDigit || c == '-' || c == '_' || c == '.' || c == '/')
  String.mk (if clean.length > 200 then clean.take 200 else clean)

/-- The hostname under which `targetPathFor` files a response
(crawler.js lines 84–91, the grouping step). -/
def targetHostnameFor (url : String) (main : Option String) : String :=
  match main with
  | some m => if m != "" && (parseURL url).hostname != m then m else (parseURL url).hostname
  | none => (parseURL url).hostname

/-- The pre-sanitization filename `targetPathFor` uses
(crawler.js lines 76–91). -/
def finalFileNameFor (url : String) (defaultExt contentType : Option String) (main : Option String) : String :=
  let f := baseFileNameFor (parseURL url).pathname defaultExt contentType
  match main with
  | some m =>
    if m != "" && (parseURL url).hostname != m then sanitizeFilename (parseURL url).hostname ++ "_" ++ f
    else f
  | none => f

/-- C4, counterexample: `sanitizeFilename` does not strip characters
outside `[A-Za-z0-9-_./]` — it replaces them with `'_'` — so on `"a b"`
the code yields `"a_b"` while the claim's stripping reading yields
`"ab"`. -/
theorem C4_counterexample :
    sanitizeFilename "a b" = "a_b" ∧ sanitizeSpecStripped "a b" = "ab" ∧
    sanitizeFilename "a b" ≠ sanitizeSpecStripped "a b" := by
  refine ⟨by decide, by decide, by decide⟩

/-- C4 (amended): `sanitizeFilename` replaces every character outside
`[A-Za-z0-9-_./]` with `'_'` (so the output length is the input length
capped at 200, and every output character is in the allowed class), and
every `targetPathFor` result — the resolver behind every non-`data:` save
path — equals `outputRoot / sanitize(targetHostname) / bucket /
sanitize(filename)`. -/
theorem C4_amended :
    (∀ s : String, (sanitizeFilename s).length = min s.length 200) ∧
    (∀ s : String, ∀ c ∈ (sanitizeFilename s).data, sanitizeChar c = c) ∧
    (∀ url baseDir : String, ∀ dExt ct main : Option String,
      targetPathFor url baseDir dExt ct main =
        pathJoin [baseDir, sanitizeFilename (targetHostnameFor url main),
          fileTypeFor dExt ct, sanitizeFilename (finalFileNameFor url dExt ct main)]) := by
  refine ⟨?_, ?_, ?_⟩
  · intro s
    simp only [sanitizeFilename, strLength_mk]
    split
    · rw [List.length_take]
      simp only [List.length_map]
      have : s.length = s.data.length := rfl
      omega
    · simp only [List.length_map]
      have h1 : s.length = s.data.length := rfl
      simp only [List.length_map] at *
      omega
  · intro s c hc
    simp only [sanitizeFilename] at hc
    have hmem : c ∈ s.data.map sanitizeChar := by
      by_cases h : (s.data.map sanitizeChar).length > 200
      · rw [if_pos h] at hc
        exact List.mem_of_mem_take hc
      · rw [if_neg h] at hc
        exact hc
    obtain ⟨a, _, rfl⟩ := List.mem_map.mp hmem
    exact sanitizeChar_idem a
  · intro url baseDir dExt ct main
    cases main with
    | none => simp only [targetPathFor, targetHostnameFor, finalFileNameFor]
    | some m =>
      simp only [targetPathFor, targetHostnameFor, finalFileNameFor]
      by_cases h : (m != "" && (parseURL url).hostname != m) = true
      · simp only [h, if_true]
      · simp only [h, if_false, Bool.false_eq_true]

/-- C4, witness: the amended statement at concrete inputs. -/
theorem C4_amended_witness :
    (sanitizeFilename "a b!").length = min ("a b!" : String).length 200 ∧
    sanitizeChar '_' = '_' ∧
    targetPathFor "https://cdn.b.com/x.js" "out" (some ".js") (some "application/javascript") (some "a.com") =
      pathJoin ["out", sanitizeFilename (targetHostnameFor "https://cdn.b.com/x.js" (some "a.com")),
        fileTypeFor (some ".js") (some "application/javascript"),
        sanitizeFilename (finalFileNameFor "https://cdn.b.com/x.js" (some ".js") (some "application/javascript") (some "a.com"))] :=
  ⟨C4_amended.1 "a b!", C4_amended.2.1 "a b!" '_' (by decide),
   C4_amended.2.2 "https://cdn.b.com/x.js" "out" (some ".js") (some "application/javascript") (some "a.com")⟩

/-! ## Claim C1 -/

theorem sanitizeFilename_data (s : String) :
    (sanitizeFilename s).data =
      (if (s.data.map sanitizeChar).length > 200 then (s.data.map sanitizeChar).take 200
       else s.data.map sanitizeChar) := rfl

theorem sanitize_group_startsWith (host f : String) (h : host.length + 1 ≤ 200) :
    strStartsWith (sanitizeFilename (sanitizeFilename host ++ "_" ++ f))
      (sanitizeFilename host ++ "_") = true := by
  have hlen : host.data.length + 1 ≤ 200 := h
  have hsh : (sanitizeFilename host).data = host.data.map sanitizeChar :=
    sanitizeFilename_data_short host (by
      have hx : host.length = host.data.length := rfl
      omega)
  have hB : (sanitizeFilename host ++ "_").data = host.data.map sanitizeChar ++ ['_'] := by
    rw [strData_append, hsh]
  have hB2 : (sanitizeFilename host ++ "_" ++ f).data =
      (host.data.map sanitizeChar ++ ['_']) ++ f.data := by
    rw [strData_append, hB]
  have hu : ['_'].map sanitizeChar = ['_'] := by decide
  have hclean : (sanitizeFilename host ++ "_" ++ f).data.map sanitizeChar =
      (host.data.map sanitizeChar ++ ['_']) ++ f.data.map sanitizeChar := by
    rw [hB2, List.map_append, List.map_append, map_sanitizeChar_idem, hu]
  simp only [strStartsWith, hB, sanitizeFilename_data, hclean]
  by_cases hl : (((host.data.map sanitizeChar ++ ['_']) ++ f.data.map sanitizeChar).length > 200)
  · rw [if_pos hl, take_append_of_le]
    · exact isPrefixOf_self_append _ _
    · simp only [List.length_append, List.length_map, List.length_singleton]
      omega
  · rw [if_neg hl]
    exact isPrefixOf_self_append _ _

/-- C1 (amended): for a resource whose hostname differs from the (truthy)
main hostname, the immediate-save and router paths — which call
`targetPathFor` with the main hostname — are rooted at the sanitized main
hostname with the sanitized full origin hostname prefixed to the filename
(so for main `a.com` and `https://cdn.b.com/x.js` the path is
`outputRoot/a.com/js/cdn.b.com_x.js`), while the deferred pending drain
calls `targetPathFor` without the main hostname, so its path is rooted at
the resource's own hostname. -/
theorem C1_amended (url baseDir : String) (dExt ct : Option String) (m : String)
    (hm : m ≠ "") (hh : (parseURL url).hostname ≠ m)
    (h200 : (parseURL url).hostname.length + 1 ≤ 200) :
    targetPathFor url baseDir dExt ct (some m) =
      pathJoin [baseDir, sanitizeFilename m, fileTypeFor dExt ct,
        sanitizeFilename (sanitizeFilename (parseURL url).hostname ++ "_" ++
          baseFileNameFor (parseURL url).pathname dExt ct)] ∧
    strStartsWith
      (sanitizeFilename (sanitizeFilename (parseURL url).hostname ++ "_" ++
        baseFileNameFor (parseURL url).pathname dExt ct))
      (sanitizeFilename (parseURL url).hostname ++ "_") = true ∧
    targetPathFor url baseDir dExt ct none =
      pathJoin [baseDir, sanitizeFilename (parseURL url).hostname, fileTypeFor dExt ct,
        sanitizeFilename (baseFileNameFor (parseURL url).pathname dExt ct)] := by
  have h1 : (m != "") = true := bne_iff_ne.mpr hm
  have h2 : ((parseURL url).hostname != m) = true := bne_iff_ne.mpr hh
  refine ⟨?_, ?_, ?_⟩
  · simp only [targetPathFor, h1, h2, Bool.and_self, if_true]
  · exact sanitize_group_startsWith (parseURL url).hostname
      (baseFileNameFor (parseURL url).pathname dExt ct) h200
  · simp only [targetPathFor]

/-- C1, counterexample: with main hostname `a.com`, the response from
`https://cdn.b.com/x.js` is saved at `out/a.com/js/cdn.b.com_x.js` — the
prefix is the sanitized full origin hostname `cdn.b.com`, not `b.com` as
the claim's example states — and the deferred pending drain, which omits
the main hostname, roots `https://cdn.b.com/x.wasm` at the resource's own
hostname `cdn.b.com`. -/
theorem C1_counterexample :
    targetPathFor "https://cdn.b.com/x.js" "out" (some ".js") (some "application/javascript") (some "a.com") =
      "out/a.com/js/cdn.b.com_x.js" ∧
    "out/a.com/js/cdn.b.com_x.js" ≠ "out/a.com/js/b.com_x.js" ∧
    drainItemSave "out" "https://cdn.b.com/x.wasm" (BodyRead.ok [1, 2, 3, 4]) =
      some "out/cdn.b.com/wasm/x.wasm" ∧
    strStartsWith "out/cdn.b.com/wasm/x.wasm" "out/a.com/" = false := by
  refine ⟨by decide, by decide, by decide, by decide⟩

/-- C1, witness: the amended statement at the `a.com` / `cdn.b.com`
example. -/
theorem C1_amended_witness :
    targetPathFor "https://cdn.b.com/x.js" "out" (some ".js") (some "application/javascript") (some "a.com") =
      pathJoin ["out", sanitizeFilename "a.com", fileTypeFor (some ".js") (some "application/javascript"),
        sanitizeFilename (sanitizeFilename (parseURL "https://cdn.b.com/x.js").hostname ++ "_" ++
          baseFileNameFor (parseURL "https://cdn.b.com/x.js").pathname (some ".js") (some "application/javascript"))] ∧
    strStartsWith
      (sanitizeFilename (sanitizeFilename (parseURL "https://cdn.b.com/x.js").hostname ++ "_" ++
        baseFileNameFor (parseURL "https://cdn.b.com/x.js").pathname (some ".js") (some "application/javascript")))
      (sanitizeFilename (parseURL "https://cdn.b.com/x.js").hostname ++ "_") = true ∧
    targetPathFor "https://cdn.b.com/x.js" "out" (some ".js") (some "application/javascript") none =
      pathJoin ["out", sanitizeFilename (parseURL "https://cdn.b.com/x.js").hostname,
        fileTypeFor (some ".js") (some "application/javascript"),
        sanitizeFilename (baseFileNameFor (parseURL "https://cdn.b.com/x.js").pathname (some ".js") (some "application/javascript"))] :=
  C1_amended "https://cdn.b.com/x.js" "out" (some ".js") (some "application/javascript") "a.com"
    (by decide) (by decide) (by decide)

/-! ## Claim C2 -/

/-- C2, counterexample: a `text/html` document response whose body starts
with the WASM magic is skipped by the `shouldProcess` gate — its body is
never read and nothing is saved, into the `wasm` bucket or anywhere else. -/
theorem C2_counterexample :
    isWasmByMagic [0, 97, 115, 109, 1, 0] = true ∧
    responseRoute ⟨"https://a.com/page", some "text/html", "document"⟩ false
      (some [0, 97, 115, 109, 1, 0]) = SaveRoute.skipped ∧
    routeBucket ⟨"https://a.com/page", some "text/html", "document"⟩ SaveRoute.skipped = none := by
  refine ⟨by decide, by decide, by decide⟩

/-- C2 (amended): for a response that passes the `shouldProcess` gate, has
declared content type `text/html`, a non-`data:` URL and a non-empty body
beginning with `00 61 73 6D`, the handler's route files it under the `wasm`
bucket — the magic bytes override the mismatching declared type — but
responses rejected by the gate are never read or saved at all. -/
theorem C2_amended (ev : ResponseEvent) (body : List Nat)
    (hct : ev.contentType = some "text/html")
    (hurl : ev.url ≠ "")
    (hdata : strStartsWith ev.url "data:" = false)
    (hgate : shouldProcessFor ev = true)
    (hbody : body ≠ [])
    (hmagic : isWasmByMagic body = true) :
    routeBucket ev (responseRoute ev false (some body)) = some "wasm" := by
  have hu : (ev.url == "") = false := beq_eq_false_iff_ne.mpr hurl
  have hbe : body.isEmpty = false := by
    cases body with
    | nil => exact absurd rfl hbody
    | cons b t => rfl
  by_cases hW : isLikelyWasmByHeuristics ev.contentType ev.url = true
  · simp only [responseRoute, hu, Bool.false_or, if_false, hgate, Bool.not_true, hW, if_true,
      Bool.false_eq_true, routeBucket]
    decide
  · have hW' : isLikelyWasmByHeuristics ev.contentType ev.url = false := by
      revert hW
      cases isLikelyWasmByHeuristics ev.contentType ev.url <;> simp
    have hW2 : isLikelyWasmByHeuristics (some "text/html") ev.url = false := by
      rw [← hct]
      exact hW'
    have hext : secondPassExt ev body = some ".wasm" := by
      simp only [secondPassExt, hW', hmagic, Bool.false_or, if_true]
    simp only [responseRoute, hu, Bool.false_or, if_false, hgate, Bool.not_true, hW', hW2,
      Bool.false_eq_true, hbe, hdata, hext, routeBucket, hct]
    decide

/-- C2, witness: the amended statement for a `text/html` response on a
`.js` URL whose body carries the WASM magic. -/
theorem C2_amended_witness :
    routeBucket ⟨"https://a.com/app.js", some "text/html", "fetch"⟩
      (responseRoute ⟨"https://a.com/app.js", some "text/html", "fetch"⟩ false
        (some [0, 97, 115, 109])) = some "wasm" :=
  C2_amended ⟨"https://a.com/app.js", some "text/html", "fetch"⟩ [0, 97, 115, 109]
    rfl (by decide) (by decide) (by decide) (by decide) (by decide)

/-! ## Claim C3 -/

/-- The `data:application/wasm` response of C3's counterexample. -/
def dataWasmEv : ResponseEvent :=
  ⟨"data:application/wasm;base64,AGFzbQEAAAA=", some "application/wasm", "fetch"⟩

/-- C3, counterexample: a `data:application/wasm` URL is WASM by
heuristics, so the handler takes the immediate WASM branch and resolves its
path through `targetPathFor` — the hostname/bucket algorithm — producing
`out/a.com/wasm/...`, not a synthetic `inline/` name. -/
theorem C3_counterexample :
    responseRoute dataWasmEv false none = SaveRoute.wasmImmediate ∧
    routePath "a.com" "out" "1700000000000_k3x" dataWasmEv SaveRoute.wasmImmediate =
      some "out/a.com/wasm/_application_wasm_base64_AGFzbQEAAAA_.wasm" ∧
    strContains "out/a.com/wasm/_application_wasm_base64_AGFzbQEAAAA_.wasm" "inline" = false := by
  refine ⟨by decide, by decide, by decide⟩

/-- C3 (amended): a `data:` URL is given the synthetic `inline/` name only
on the general branch — when the response passes the gate without being
WASM by heuristics — while every response that is WASM by heuristics,
`data:application/wasm` URLs included, takes the immediate WASM branch,
whose path is resolved through `targetPathFor`. -/
theorem C3_amended :
    (∀ (ev : ResponseEvent) (body : List Nat),
      strStartsWith ev.url "data:" = true → ev.url ≠ "" →
      shouldProcessFor ev = true →
      isLikelyWasmByHeuristics ev.contentType ev.url = false →
      body ≠ [] →
      ∃ ext, responseRoute ev false (some body) = SaveRoute.inlineData ext) ∧
    (∀ (ev : ResponseEvent) (bodyRead : Option (List Nat)),
      ev.url ≠ "" →
      isLikelyWasmByHeuristics ev.contentType ev.url = true →
      responseRoute ev false bodyRead = SaveRoute.wasmImmediate) := by
  constructor
  · intro ev body hdata hurl hgate hW hbody
    have hu : (ev.url == "") = false := beq_eq_false_iff_ne.mpr hurl
    have hbe : body.isEmpty = false := by
      cases body with
      | nil => exact absurd rfl hbody
      | cons b t => rfl
    refine ⟨secondPassExt ev body, ?_⟩
    simp only [responseRoute, hu, Bool.false_or, hgate, Bool.not_true, hW,
      Bool.false_eq_true, if_false, hbe, hdata, if_true]
  · intro ev bodyRead hurl hW
    have hu : (ev.url == "") = false := beq_eq_false_iff_ne.mpr hurl
    have hgate : shouldProcessFor ev = true := by
      simp only [shouldProcessFor, hW, Bool.true_or]
    simp only [responseRoute, hu, Bool.false_or, hgate, Bool.not_true, hW, if_true,
      Bool.false_eq_true, if_false]

/-- C3, witness: the amended statement at a `data:` JavaScript URL (general
branch) and at the `data:application/wasm` URL (immediate WASM branch). -/
theorem C3_amended_witness :
    (∃ ext, responseRoute ⟨"data:text/javascript,alert(1)", some "text/javascript", "script"⟩
      false (some [97]) = SaveRoute.inlineData ext) ∧
    responseRoute dataWasmEv false none = SaveRoute.wasmImmediate :=
  ⟨C3_amended.1 ⟨"data:text/javascript,alert(1)", some "text/javascript", "script"⟩ [97]
      (by decide) (by decide) (by decide) (by decide) (by decide),
   C3_amended.2 dataWasmEv none (by decide) (by decide)⟩

/-! ## Claim C5 -/

/-- C5: a navigation target failing on every attempt is tried exactly 3
times with the strictly increasing waits 2000 ms and 4000 ms between
attempts, the final error being rethrown to the page loop's catch; and the
page-visit loop turns every navigation outcome into a logged record and
continues, so every queued URL is processed and no exception escapes the
loop. -/
theorem C5_holds :
    (∀ outcome : Nat → Except JsError Nat,
      (∀ n, ∃ e, outcome n = .error e) →
      ∃ e, navigateWithRetry outcome 3 = (.error e, 3, [2000, 4000])) ∧
    (∀ (navOutcome : String → Nat → Except JsError Nat) (urls : List String),
      (crawlPages navOutcome urls).map Prod.fst = urls) := by
  constructor
  · intro outcome h
    obtain ⟨e1, h1⟩ := h 1
    obtain ⟨e2, h2⟩ := h 2
    obtain ⟨e3, h3⟩ := h 3
    refine ⟨e3, ?_⟩
    simp [navigateWithRetry, navigateFrom, h1, h2, h3]
  · intro navOutcome urls
    show (urls.map (fun u => (u, pageVisitLog (navigateWithRetry (navOutcome u) 3).1))).map Prod.fst = urls
    rw [List.map_map]
    exact List.map_id urls

/-- C5, witness: the retry budget and backoff for an always-timing-out
target, and the loop record for a one-URL queue. -/
theorem C5_witness :
    (∃ e, navigateWithRetry (fun _ => .error (.err "ERR_TIMED_OUT")) 3 = (.error e, 3, [2000, 4000])) ∧
    (crawlPages (fun _ _ => .error (.err "ERR_TIMED_OUT")) ["https://a.com/"]).map Prod.fst =
      ["https://a.com/"] :=
  ⟨C5_holds.1 (fun _ => .error (.err "ERR_TIMED_OUT")) (fun _ => ⟨.err "ERR_TIMED_OUT", rfl⟩),
   C5_holds.2 (fun _ _ => .error (.err "ERR_TIMED_OUT")) ["https://a.com/"]⟩

/-! ## Claim C6 -/

/-- A harvest oracle returning the same link twice, as a page with two
identical anchors does. -/
def dupLinks (u : String) : List String :=
  if u == "https://a.com/" then ["https://a.com/p", "https://a.com/p"] else []

/-- C6, counterexample: starting from the initial state with queue
`[https://a.com/]`, one step harvests the duplicate links
`[p, p]`; the next step pops one copy and marks it visited while the other
copy is still queued — a reachable state whose `toVisit` contains a URL
already in `visited`. -/
theorem C6_counterexample :
    crawlStep 5 dupLinks (crawlStep 5 dupLinks ⟨["https://a.com/"], []⟩) =
      ⟨["https://a.com/p"], ["https://a.com/p", "https://a.com/"]⟩ ∧
    "https://a.com/p" ∈
      (crawlStep 5 dupLinks (crawlStep 5 dupLinks ⟨["https://a.com/"], []⟩)).toVisit ∧
    "https://a.com/p" ∈
      (crawlStep 5 dupLinks (crawlStep 5 dupLinks ⟨["https://a.com/"], []⟩)).visited := by
  refine ⟨by decide, by decide, by decide⟩

/-- C6 (amended): `visited` only grows under the page-visit step, and every
URL the step appends to `toVisit` by link harvesting is unvisited at append
time — but a stale duplicate of the popped URL may remain queued, so
`toVisit` can contain visited URLs; such entries are skipped when popped. -/
theorem C6_amended :
    (∀ (maxPages : Nat) (links : String → List String) (s : CrawlState) (u : String),
      u ∈ s.visited → u ∈ (crawlStep maxPages links s).visited) ∧
    (∀ (maxPages : Nat) (links : String → List String) (s : CrawlState) (u : String),
      u ∈ (crawlStep maxPages links s).toVisit →
      u ∈ s.toVisit.tail ∨ u ∉ (crawlStep maxPages links s).visited) := by
  constructor
  · intro maxPages links s u hu
    unfold crawlStep
    cases hv : s.toVisit with
    | nil => exact hu
    | cons url rest =>
      by_cases hc : s.visited.contains url = true
      · simp only [hc, if_true]
        exact hu
      · simp only [hc, Bool.false_eq_true, if_false]
        exact List.mem_cons_of_mem url hu
  · intro maxPages links s u hu
    obtain ⟨tv, vis⟩ := s
    cases tv with
    | nil =>
      simp only [crawlStep] at hu
      exact absurd hu (List.not_mem_nil u)
    | cons url rest =>
      by_cases hc : vis.contains url = true
      · simp only [crawlStep, hc, if_true] at hu ⊢
        exact Or.inl hu
      · simp only [crawlStep, hc, Bool.false_eq_true, if_false] at hu ⊢
        rcases List.mem_append.mp hu with hl | hr
        · exact Or.inl hl
        · right
          split at hr
          · have hpred := (List.mem_filter.mp hr).2
            have hnc : ((url :: vis).contains u) = false := by
              rw [Bool.and_eq_true] at hpred
              obtain ⟨_, hb⟩ := hpred
              revert hb
              cases (url :: vis).contains u <;> simp
            intro hmem
            have htrue : (url :: vis).contains u = true := List.elem_iff.mpr hmem
            rw [htrue] at hnc
            exact Bool.noConfusion hnc
          · exact absurd hr (List.not_mem_nil u)

/-- C6, witness: the amended statement at concrete states. -/
theorem C6_amended_witness :
    ("https://a.com/" ∈ (crawlStep 5 (fun _ => []) ⟨[], ["https://a.com/"]⟩).visited) ∧
    ("https://b.com/" ∈ (⟨["https://a.com/", "https://b.com/"], []⟩ : CrawlState).toVisit.tail ∨
      "https://b.com/" ∉ (crawlStep 5 (fun _ => []) ⟨["https://a.com/", "https://b.com/"], []⟩).visited) :=
  ⟨C6_amended.1 5 (fun _ => []) ⟨[], ["https://a.com/"]⟩ "https://a.com/" (by decide),
   C6_amended.2 5 (fun _ => []) ⟨["https://a.com/", "https://b.com/"], []⟩ "https://b.com/" (by decide)⟩

/-! ## Claim C8 -/

/-- C8, counterexample: on the request-router path, a failing
`route.fetch()` happens outside any try/catch, so its exception leaves the
route handler instead of being caught and discarded. -/
theorem C8_counterexample :
    routeHandler "https://build.example/compile?rt=wasi&target=arduino"
      ⟨.error (.err "fetch failed"), .ok (), .ok (), .ok ()⟩ = .error (.err "fetch failed") ∧
    isArduinoCompileUrl "https://build.example/compile?rt=wasi&target=arduino" = true := by
  refine ⟨rfl, by decide⟩

/-- C8 (amended): the response handler's outermost try/catch swallows every
exception of its body, so the response event always completes normally; on
the request-router path only the body-processing segment is guarded — the
handler completes normally whenever `route.fetch`, `route.fulfill` and
`route.continue` succeed, even if the guarded save step throws, but an
error in those unguarded steps leaves the handler. -/
theorem C8_amended :
    (∀ run : Except JsError SaveRoute, ∃ v, responseHandlerGuard run = .ok v) ∧
    (∀ (url : String) (steps : RouteSteps),
      (∃ b, steps.fetchResult = .ok b) →
      steps.fulfillResult = .ok () →
      steps.continueResult = .ok () →
      routeHandler url steps = .ok ()) := by
  constructor
  · intro run
    cases run with
    | ok r => exact ⟨some r, rfl⟩
    | error e => exact ⟨none, rfl⟩
  · intro url steps hf hful hcont
    obtain ⟨⟨okFlag, body⟩, hfetch⟩ := hf
    by_cases h : isArduinoCompileUrl url = true
    · simp only [routeHandler, h, if_true, hfetch, hful]
    · simp only [routeHandler, h, Bool.false_eq_true, if_false, hcont]

/-- C8, witness: the guard at a throwing handler body, and the router at a
successful fetch whose guarded save step throws. -/
theorem C8_amended_witness :
    (∃ v, responseHandlerGuard (.error (.err "boom")) = .ok v) ∧
    routeHandler "https://build.example/compile?rt=wasi&target=arduino"
      ⟨.ok (true, [1]), .error (.err "disk full"), .ok (), .ok ()⟩ = .ok () :=
  ⟨C8_amended.1 (.error (.err "boom")),
   C8_amended.2 "https://build.example/compile?rt=wasi&target=arduino"
     ⟨.ok (true, [1]), .error (.err "disk full"), .ok (), .ok ()⟩
     ⟨(true, [1]), rfl⟩ rfl rfl⟩

/-! ## Claim C9 -/

theorem count_drained_le (outDir : String) (l : List (String × BodyRead)) (u : String) :
    (((l.filterMap (fun e => (drainItemSave outDir e.1 e.2).map (fun p => (e.1, p)))).map Prod.fst).count u) ≤
      ((l.map Prod.fst).count u) := by
  induction l with
  | nil => simp
  | cons e t ih =>
    obtain ⟨e1, e2⟩ := e
    cases hd : drainItemSave outDir e1 e2 with
    | none =>
      simp only [List.filterMap_cons, hd, Option.map_none', List.map_cons, List.count_cons]
      exact le_trans ih (Nat.le_add_right _ _)
    | some q =>
      simp only [List.filterMap_cons, hd, Option.map_some', List.map_cons, List.count_cons]
      omega

theorem drained_mem_ok (outDir : String) (l : List (String × BodyRead)) (u : String) (p : String)
    (h : (u, p) ∈ l.filterMap (fun e => (drainItemSave outDir e.1 e.2).map (fun q => (e.1, q)))) :
    ∃ body, (u, BodyRead.ok body) ∈ l ∧ body ≠ [] := by
  induction l with
  | nil => simp at h
  | cons e t ih =>
    obtain ⟨e1, e2⟩ := e
    cases hd : drainItemSave outDir e1 e2 with
    | none =>
      simp only [List.filterMap_cons, hd, Option.map_none'] at h
      obtain ⟨body, hmem, hne⟩ := ih h
      exact ⟨body, List.mem_cons_of_mem _ hmem, hne⟩
    | some q =>
      simp only [List.filterMap_cons, hd, Option.map_some'] at h
      rcases List.mem_cons.mp h with hhead | htail
      · have hu : u = e1 := congrArg Prod.fst hhead
        subst hu
        cases e2 with
        | failed msg => simp [drainItemSave] at hd
        | ok body =>
          by_cases hbe : body.isEmpty = true
          · simp [drainItemSave, hbe] at hd
          · refine ⟨body, List.mem_cons_self _ _, ?_⟩
            intro hnil
            rw [hnil] at hbe
            exact hbe rfl
      · obtain ⟨body, hmem, hne⟩ := ih htail
        exact ⟨body, List.mem_cons_of_mem _ hmem, hne⟩

/-- C9: the drain consumes each pending entry at most once (per queued
multiplicity), every produced save comes from a successful non-empty body
read — failed or timed-out entries are dropped, never saved — the pending
map is empty when a drain completes, and the teardown's final drain leaves
the pending map empty before the context and browser close. -/
theorem C9_holds :
    ∀ (outDir : String) (pending : List (String × BodyRead)),
      (processPendingResponses outDir pending).2 = [] ∧
      (crawlFinalize outDir pending).2.1 = [] ∧
      (∀ u, ((processPendingResponses outDir pending).1.map Prod.fst).count u ≤
        ((pending.map Prod.fst).count u)) ∧
      (∀ u p, (u, p) ∈ (processPendingResponses outDir pending).1 →
        ∃ body, (u, BodyRead.ok body) ∈ pending ∧ body ≠ []) := by
  intro outDir pending
  refine ⟨rfl, rfl, ?_, ?_⟩
  · intro u
    exact count_drained_le outDir pending u
  · intro u p hmem
    exact drained_mem_ok outDir pending u p hmem

/-- The pending queue of C9's witness: one readable entry, one timed-out
entry. -/
def pendingSample : List (String × BodyRead) :=
  [("https://a.com/x.wasm", BodyRead.ok [0, 97, 115, 109]),
   ("https://a.com/y.wasm", BodyRead.failed "Timeout")]

/-- C9, witness: the drained save of `pendingSample` comes from its
successful non-empty body read. -/
theorem C9_witness :
    ∃ body, ("https://a.com/x.wasm", BodyRead.ok body) ∈ pendingSample ∧ body ≠ [] :=
  (C9_holds "out" pendingSample).2.2.2 "https://a.com/x.wasm" "out/a.com/wasm/x.wasm" (by decide)

/-! ## Claim C10 -/

/-- C10: in both the immediate WASM branch and the pending drain, any
non-empty body — here one that is explicitly not WASM by magic — is written
at the `.wasm`/`application/wasm` target path and the URL marked saved; the
recomputed magic check does not gate the write, and the bucket of both
paths is `wasm`. -/
theorem C10_holds :
    ∀ (mainHostname outDir url : String) (body : List Nat),
      body ≠ [] → isWasmByMagic body = false →
      immediateWasmSave mainHostname outDir url (.ok body) =
        .savedAt (targetPathFor url outDir (some ".wasm") (some "application/wasm") (some mainHostname)) ∧
      drainItemSave outDir url (.ok body) =
        some (targetPathFor url outDir (some ".wasm") (some "application/wasm") none) ∧
      fileTypeFor (some ".wasm") (some "application/wasm") = "wasm" := by
  intro mainHostname outDir url body hne hmagic
  have hbe : body.isEmpty = false := by
    cases body with
    | nil => exact absurd rfl hne
    | cons b t => rfl
  refine ⟨?_, ?_, by decide⟩
  · simp only [immediateWasmSave, hbe, Bool.false_eq_true, if_false]
  · simp only [drainItemSave, hbe, Bool.false_eq_true, if_false]

/-- C10, witness: the bytes `[1, 2, 3, 4]` are not WASM by magic, yet both
paths persist them under the `wasm` bucket. -/
theorem C10_witness :
    immediateWasmSave "a.com" "out" "https://cdn.b.com/x.wasm" (.ok [1, 2, 3, 4]) =
      .savedAt (targetPathFor "https://cdn.b.com/x.wasm" "out" (some ".wasm") (some "application/wasm") (some "a.com")) ∧
    drainItemSave "out" "https://cdn.b.com/x.wasm" (.ok [1, 2, 3, 4]) =
      some (targetPathFor "https://cdn.b.com/x.wasm" "out" (some ".wasm") (some "application/wasm") none) ∧
    fileTypeFor (some ".wasm") (some "application/wasm") = "wasm" :=
  C10_holds "a.com" "out" "https://cdn.b.com/x.wasm" [1, 2, 3, 4] (by decide) (by decide)

/-! ## Claim C7 -/

/-- The test-property literal: the data URL of the 4-byte WASM magic plus
version, base64-encoded. -/
def wasmDataUrlLit : String := "data:application/wasm;base64,AGFzbQEAAAA="

/-- The payload part of `wasmDataUrlLit`. -/
def wasmPayloadL : List Char := "AGFzbQEAAAA=".data

/-- `noHeaderStraddle pre`: no occurrence of the extractor's header starts
at any position inside `pre` when `pre` is followed by the header itself
(the scan up to `pre`'s end finds no earlier match). -/
def noHeaderStraddle (pre : List Char) : Bool :=
  (List.range pre.length).all (fun i => !(headerL.isPrefixOf (pre.drop i ++ headerL)))

theorem isPrefixOf_false_extend (l : List Char) :
    ∀ a y : List Char, l.length ≤ a.length → l.isPrefixOf a = false →
      l.isPrefixOf (a ++ y) = false := by
  induction l with
  | nil =>
    intro a y _ h
    simp [List.isPrefixOf] at h
  | cons c lt ih =>
    intro a y hlen h
    cases a with
    | nil => simp at hlen
    | cons b bt =>
      simp only [List.cons_append, List.isPrefixOf] at h ⊢
      by_cases hcb : (c == b) = true
      · simp only [hcb, Bool.true_and] at h ⊢
        exact ih bt y (by simpa using hlen) h
      · have hcb' : (c == b) = false := by
          revert hcb
          cases (c == b) <;> simp
        simp only [hcb', Bool.false_and]
    
theorem takeWhile_append_all (p : Char → Bool) (l r : List Char)
    (h : ∀ c ∈ l, p c = true) :
    (l ++ r).takeWhile p = l ++ r.takeWhile p := by
  induction l with
  | nil => simp
  | cons c t ih =>
    have hc : p c = true := h c (List.mem_cons_self c t)
    simp only [List.cons_append, List.takeWhile_cons, hc, if_true]
    rw [ih (fun d hd => h d (List.mem_cons_of_mem c hd))]

theorem base64decode_magic_head (r : List Char) :
    base64decode ('A' :: 'G' :: 'F' :: 'z' :: 'b' :: 'Q' :: 'E' :: 'A' :: r) =
      0 :: 97 :: 115 :: 109 :: 1 :: 0 :: base64decode r := rfl

theorem scanWasm_cons_skip (c : Char) (rest : List Char)
    (h : headerL.isPrefixOf (c :: rest) = false) :
    scanWasmL (c :: rest) = scanWasmL rest := by
  simp only [scanWasmL, List.length_cons]
  rw [scanAux]
  simp only [h, Bool.false_eq_true, if_false]

theorem scanWasm_at_header (x : List Char)
    (hpre : headerL.isPrefixOf x = true)
    (hrun : (x.drop headerL.length).takeWhile b64char ≠ []) :
    scanWasmL x = (x.drop headerL.length).takeWhile b64char ::
      scanAux (x.length - 1) ((x.drop headerL.length).dropWhile b64char) := by
  cases x with
  | nil =>
    have : headerL.isPrefixOf ([] : List Char) = false := by decide
    rw [this] at hpre
    exact Bool.noConfusion hpre
  | cons c rest =>
    simp only [scanWasmL, List.length_cons]
    rw [scanAux]
    simp only [hpre, if_true]
    rw [if_neg]
    · simp [Nat.add_sub_cancel]
    · intro hh
      exact hrun (List.isEmpty_iff.mp hh)

theorem extract_reaches (post : List Char) :
    ∀ pre : List Char, noHeaderStraddle pre = true →
      ∃ b ∈ extractInlineWasmL (pre ++ wasmDataUrlLit.data ++ post), isWasmByMagic b = true := by
  have hsplit : wasmDataUrlLit.data = headerL ++ wasmPayloadL := by decide
  have hall : ∀ c ∈ wasmPayloadL, b64char c = true := by decide
  intro pre
  induction pre with
  | nil =>
    intro _
    rw [List.nil_append, hsplit, List.append_assoc]
    have hpre : headerL.isPrefixOf (headerL ++ (wasmPayloadL ++ post)) = true :=
      isPrefixOf_self_append headerL (wasmPayloadL ++ post)
    have hdrop : (headerL ++ (wasmPayloadL ++ post)).drop headerL.length = wasmPayloadL ++ post :=
      List.drop_left headerL (wasmPayloadL ++ post)
    have htake : (wasmPayloadL ++ post).takeWhile b64char =
        wasmPayloadL ++ post.takeWhile b64char :=
      takeWhile_append_all b64char wasmPayloadL post hall
    have hrun : ((headerL ++ (wasmPayloadL ++ post)).drop headerL.length).takeWhile b64char ≠ [] := by
      rw [hdrop, htake]
      intro hh
      have : wasmPayloadL = [] ∧ post.takeWhile b64char = [] := List.append_eq_nil.mp hh
      exact absurd this.1 (by decide)
    have hscan := scanWasm_at_header (headerL ++ (wasmPayloadL ++ post)) hpre hrun
    rw [hdrop, htake] at hscan
    have hshape : wasmPayloadL ++ post.takeWhile b64char =
        'A' :: 'G' :: 'F' :: 'z' :: 'b' :: 'Q' :: 'E' :: 'A' :: ("AAA=".data ++ post.takeWhile b64char) := rfl
    have hdec : base64decode (wasmPayloadL ++ post.takeWhile b64char) =
        0 :: 97 :: 115 :: 109 :: 1 :: 0 :: base64decode ("AAA=".data ++ post.takeWhile b64char) := by
      rw [hshape, base64decode_magic_head]
    refine ⟨base64decode (wasmPayloadL ++ post.takeWhile b64char), ?_, ?_⟩
    · apply List.mem_filter.mpr
      constructor
      · rw [hscan]
        exact List.mem_map_of_mem base64decode (List.mem_cons_self _ _)
      · rw [hdec]
        rfl
    · rw [hdec]
      rfl
  | cons c t ih =>
    intro hstraddle
    have hstr0 : headerL.isPrefixOf ((c :: t) ++ headerL) = false := by
      have h0 := (List.all_eq_true.mp hstraddle) 0
        (List.mem_range.mpr (by simp))
      simp only [List.drop_zero] at h0
      revert h0
      cases headerL.isPrefixOf ((c :: t) ++ headerL) <;> simp
    have hstr' : noHeaderStraddle t = true := by
      simp only [noHeaderStraddle, List.all_eq_true]
      intro i hi
      have hi1 : i + 1 ∈ List.range (c :: t).length := by
        rw [List.mem_range] at hi ⊢
        simp only [List.length_cons]
        omega
      have := (List.all_eq_true.mp hstraddle) (i + 1) hi1
      simpa [List.drop_succ_cons] using this
    have hassoc : (c :: t) ++ wasmDataUrlLit.data ++ post =
        c :: (t ++ wasmDataUrlLit.data ++ post) := by
      simp [List.cons_append]
    have hskip : headerL.isPrefixOf (c :: (t ++ wasmDataUrlLit.data ++ post)) = false := by
      have hsh : c :: (t ++ wasmDataUrlLit.data ++ post) =
          ((c :: t) ++ headerL) ++ (wasmPayloadL ++ post) := by
        rw [hsplit]
        simp [List.cons_append, List.append_assoc]
      rw [hsh]
      apply isPrefixOf_false_extend headerL ((c :: t) ++ headerL) (wasmPayloadL ++ post)
      · simp only [List.length_append]
        omega
      · exact hstr0
    have hscan : scanWasmL ((c :: t) ++ wasmDataUrlLit.data ++ post) =
        scanWasmL (t ++ wasmDataUrlLit.data ++ post) := by
      rw [hassoc]
      exact scanWasm_cons_skip c (t ++ wasmDataUrlLit.data ++ post) hskip
    have hext : extractInlineWasmL ((c :: t) ++ wasmDataUrlLit.data ++ post) =
        extractInlineWasmL (t ++ wasmDataUrlLit.data ++ post) := by
      simp only [extractInlineWasmL, hscan]
    rw [hext]
    exact ih hstr'

/-- The adversarial JavaScript body of C7's counterexample: an earlier
header occurrence whose greedy base64 capture swallows the `data` prefix of
the real data URL, so the scan never matches the genuine payload. -/
def advInlineStr : String :=
  "data:application/wasm;base64,Adata:application/wasm;base64,AGFzbQEAAAA="

/-- C7, counterexample: `advInlineStr` contains the literal substring
`data:application/wasm;base64,AGFzbQEAAAA=`, yet the extractor writes no
file at all — its only capture is the garbage payload `Adata`, which fails
the magic check and is discarded, and the regex's `lastIndex` has consumed
the `data` of the genuine occurrence. -/
theorem C7_counterexample :
    strContains advInlineStr "data:application/wasm;base64,AGFzbQEAAAA=" = true ∧
    extractInlineWasm advInlineStr = [] := by
  refine ⟨by decide, by decide⟩

/-- C7 (amended): every buffer the inline extractor keeps is non-empty and
begins with the WASM magic (malformed or non-magic decodes are discarded
with no file), and a JavaScript body containing
`data:application/wasm;base64,AGFzbQEAAAA=` produces a kept buffer whose
bytes begin with `00 61 73 6D` provided no earlier header occurrence
overlaps the scan — in particular whenever the occurrence follows a prefix
in which the header pattern never starts. -/
theorem C7_amended :
    (∀ s : String, ∀ b ∈ extractInlineWasm s, b ≠ [] ∧ isWasmByMagic b = true) ∧
    (∀ pre post : List Char, noHeaderStraddle pre = true →
      ∃ b ∈ extractInlineWasmL (pre ++ wasmDataUrlLit.data ++ post), isWasmByMagic b = true) := by
  constructor
  · intro s b hb
    have hf := List.mem_filter.mp hb
    rw [Bool.and_eq_true] at hf
    constructor
    · intro hnil
      have hne := hf.2.1
      rw [hnil] at hne
      exact Bool.noConfusion hne
    · exact hf.2.2
  · intro pre post h
    exact extract_reaches post pre h

/-- C7, witness: the amended statement for a body embedding the magic data
URL after a clean prefix, and the filter guarantee at a concrete extracted
buffer. -/
theorem C7_amended_witness :
    ([0, 97, 115, 109, 1, 0, 0, 0] ≠ [] ∧ isWasmByMagic [0, 97, 115, 109, 1, 0, 0, 0] = true) ∧
    (∃ b ∈ extractInlineWasmL (("var x = 1; ").data ++ wasmDataUrlLit.data ++ ("!").data),
      isWasmByMagic b = true) :=
  ⟨C7_amended.1 "x data:application/wasm;base64,AGFzbQEAAAA= y" [0, 97, 115, 109, 1, 0, 0, 0]
      (by decide),
   C7_amended.2 ("var x = 1; ").data ("!").data (by decide)⟩
